import Mathlib

/-!
Verification of the Actify ranking/leaderboard engine.

The definitions below are a shallow embedding of the JavaScript source:

* week arithmetic (getWeekStart, getWeekKey, isCurrentWeek) over timestamps
  modelled as integer milliseconds in a fixed-offset local timezone;
* the score aggregation (calculateUserScores) of the Leaderboard component,
  with JavaScript's insertion-ordered object modelled as an association list
  and Array.prototype.sort modelled as a stable merge sort;
* the vote/reaction handlers (handleVote, handleReact) of the App component.

Ratings and derived scores are modelled as rationals: all arithmetic the
source performs on them (sums, one division per submission, running means)
is exact in the scenarios the specification discusses.
-/

namespace Actify

/-! ### Week arithmetic

Timestamps are milliseconds; day numbers are days since the epoch
(1970-01-01, a Thursday).  Integer division `/` on Int is Euclidean, which
for the positive constant divisors used here coincides with floor division,
matching JavaScript's Math.floor-style day/rollover arithmetic. -/

def msPerDay : Int := 86400000

/-- Day number (days since 1970-01-01) of a millisecond timestamp. -/
def dayNumber (t : Int) : Int := t / msPerDay

/-- JavaScript Date.prototype.getDay: 0 = Sunday, ..., 6 = Saturday.
Day 0 (1970-01-01) was a Thursday (= 4). -/
def dayOfWeek (days : Int) : Int := (days + 4) % 7

/-- Embedding of getWeekStart: d.getDate() - d.getDay() + (day === 0 ? -6 : 1)
applied via setDate, then setHours(0,0,0,0).  setDate shifts the day number by
(argument - current day of month), so the civil-date detour cancels and the
result is the most recent Monday, as a day number. -/
def getWeekStartDay (t : Int) : Int :=
  let days := dayNumber t
  let day := dayOfWeek days
  days - day + (if day = 0 then -6 else 1)

/-- Millisecond timestamp of the Monday 00:00:00.000 of t's week. -/
def getWeekStart (t : Int) : Int := getWeekStartDay t * msPerDay

/-- Gregorian civil date (year, month, day-of-month) of a day number,
by the standard days-to-civil algorithm. -/
def civilFromDays (days : Int) : Int × Int × Int :=
  let z := days + 719468
  let era := z / 146097
  let doe := z - era * 146097
  let yoe := (doe - doe / 1460 + doe / 36524 - doe / 146096) / 365
  let y := yoe + era * 400
  let doy := doe - (365 * yoe + yoe / 4 - yoe / 100)
  let mp := (5 * doy + 2) / 153
  let d := doy - (153 * mp + 2) / 5 + 1
  let m := mp + (if mp < 10 then 3 else -9)
  (y + (if m ≤ 2 then 1 else 0), m, d)

/-- JavaScript Date.prototype.getFullYear of a day number (local time). -/
def getFullYear (days : Int) : Int := (civilFromDays days).1

/-- JavaScript Date.prototype.getDate (day of month, 1-31) of a day number. -/
def getDate (days : Int) : Int := (civilFromDays days).2.2

/-- Math.ceil(x / 7) on an integer x. -/
def ceilDiv7 (x : Int) : Int := (x + 6) / 7

/-- Embedding of getWeekKey: the template-string week key
year + "-W" + ceil((getDate - getDay + 1) / 7) of the week start, modelled as
the pair of its two numeric components (the template is injective in them,
so string equality coincides with pair equality). -/
def getWeekKey (t : Int) : Int × Int :=
  let ws := getWeekStartDay t
  (getFullYear ws, ceilDiv7 (getDate ws - dayOfWeek ws + 1))

/-- Embedding of isCurrentWeek: week-key equality, with "now" (the source's
zero-argument getWeekKey()) passed explicitly. -/
def isCurrentWeek (timestamp now : Int) : Bool :=
  decide (getWeekKey timestamp = getWeekKey now)

/-! ### Data model -/

structure Vote where
  userId : String
  rating : Rat
deriving DecidableEq, Repr

structure Reaction where
  userId : String
  emoji : String
deriving DecidableEq, Repr

/-- A submission.  userId is optional to model the duck-typed source objects
(a record missing its userId).  votes/reactions are optional because the
source guards them with ?. and || fallbacks. -/
structure Submission where
  id : String
  userId : Option String
  userName : String
  timestamp : Int
  votes : Option (List Vote)
  reactions : Option (List Reaction)
deriving DecidableEq, Repr

/-- The per-user accumulator / output record of calculateUserScores.
Field names follow the source (submissions = submission count,
reactions / votes = summed list lengths; streak is initialised and never
updated by calculateUserScores). -/
structure UserScore where
  userId : Option String
  userName : String
  totalPoints : Rat
  submissions : Nat
  averageRating : Rat
  streak : Nat
  reactions : Nat
  votes : Nat
deriving DecidableEq, Repr

/-! ### Score aggregation (calculateUserScores) -/

/-- The fresh entry created when a userId is first seen. -/
def initScore (s : Submission) : UserScore :=
  { userId := s.userId, userName := s.userName, totalPoints := 0,
    submissions := 0, averageRating := 0, streak := 0, reactions := 0,
    votes := 0 }

/-- Embedding of submission.votes?.length || 0. -/
def votesLen (s : Submission) : Nat :=
  match s.votes with
  | some vs => vs.length
  | none => 0

/-- Embedding of submission.reactions?.length || 0. -/
def reactionsLen (s : Submission) : Nat :=
  match s.reactions with
  | some rs => rs.length
  | none => 0

/-- Embedding of votes.reduce((sum, vote) => sum + vote.rating, 0). -/
def sumRatings (vs : List Vote) : Rat :=
  vs.foldl (fun sum v => sum + v.rating) 0

/-- One loop iteration of calculateUserScores on an existing entry u:
increment the counters, then, if the submission has votes, add the
submission's average rating times 10 to totalPoints and fold it into the
running mean (dividing by the already-incremented submission count, exactly
as the source does). -/
def updateScore (u : UserScore) (s : Submission) : UserScore :=
  let u1 : UserScore :=
    { u with submissions := u.submissions + 1,
             reactions := u.reactions + reactionsLen s,
             votes := u.votes + votesLen s }
  match s.votes with
  | some vs =>
    if 0 < vs.length then
      let avgRating : Rat := sumRatings vs / (vs.length : Rat)
      { u1 with
        totalPoints := u1.totalPoints + avgRating * 10,
        averageRating :=
          ((u1.averageRating * ((u1.submissions : Rat) - 1)) + avgRating) /
            (u1.submissions : Rat) }
    else u1
  | none => u1

/-- Process one submission against the insertion-ordered userScores object,
modelled as an association list keyed by userId: create-on-first-sight, then
update in place. -/
def upsert (acc : List UserScore) (s : Submission) : List UserScore :=
  match acc with
  | [] => [updateScore (initScore s) s]
  | u :: rest =>
    if u.userId = s.userId then updateScore u s :: rest
    else u :: upsert rest s

/-- The forEach loop of calculateUserScores (Object.values order = insertion
order of first appearance). -/
def aggregate (subs : List Submission) : List UserScore :=
  subs.foldl upsert []

/-- The comparator (a, b) => b.totalPoints - a.totalPoints, as the stable
is-in-order test: a may stay before b iff the comparator is <= 0. -/
def scoreLE (a b : UserScore) : Bool :=
  decide (b.totalPoints ≤ a.totalPoints)

/-- Embedding of calculateUserScores: aggregate, then
Object.values(...).sort((a, b) => b.totalPoints - a.totalPoints)
(Array.prototype.sort is stable, as is List.mergeSort). -/
def calculateUserScores (subs : List Submission) : List UserScore :=
  (aggregate subs).mergeSort scoreLE

/-! ### The Leaderboard composition -/

/-- Embedding of submissions.filter(s => isCurrentWeek(s.timestamp)). -/
def weeklySubmissions (subs : List Submission) (now : Int) : List Submission :=
  subs.filter (fun s => isCurrentWeek s.timestamp now)

/-- The Leaderboard component's two score lists:
(weeklyScores, allTimeScores). -/
def Leaderboard (subs : List Submission) (now : Int) :
    List UserScore × List UserScore :=
  (calculateUserScores (weeklySubmissions subs now), calculateUserScores subs)

/-! ### Vote and reaction handlers -/

/-- The body of handleVote for the matched submission's votes list:
replace the acting user's existing vote in place, else push a new one. -/
def applyVote (vs : List Vote) (uid : String) (rating : Rat) : List Vote :=
  match vs.findIdx? (fun v => v.userId = uid) with
  | some i => vs.set i { userId := uid, rating := rating }
  | none => vs ++ [{ userId := uid, rating := rating }]

/-- handleVote on a single submission.  The source reads
submission.votes.findIndex without a guard, so a matched submission whose
votes field is absent is a TypeError: modelled as none. -/
def voteOne (s : Submission) (sid uid : String) (rating : Rat) :
    Option Submission :=
  if s.id = sid then
    match s.votes with
    | some vs => some { s with votes := some (applyVote vs uid rating) }
    | none => none
  else some s

/-- Embedding of handleVote: map voteOne over the submission list,
propagating the possible TypeError. -/
def handleVote (subs : List Submission) (sid uid : String) (rating : Rat) :
    Option (List Submission) :=
  match subs with
  | [] => some []
  | s :: rest =>
    match voteOne s sid uid rating, handleVote rest sid uid rating with
    | some s1, some rest1 => some (s1 :: rest1)
    | _, _ => none

/-- The body of handleReact for the matched submission: the source uses
reactions?.findIndex(...) ?? -1 and [...(reactions || [])], so an absent
reactions list behaves as the empty list. -/
def applyReaction (rs : List Reaction) (uid emoji : String) : List Reaction :=
  match rs.findIdx? (fun r => r.userId = uid) with
  | some i => rs.set i { userId := uid, emoji := emoji }
  | none => rs ++ [{ userId := uid, emoji := emoji }]

/-- Embedding of handleReact (total: every access is guarded in the source). -/
def handleReact (subs : List Submission) (sid uid emoji : String) :
    List Submission :=
  subs.map (fun s =>
    if s.id = sid then
      { s with reactions := some (applyReaction (s.reactions.getD []) uid emoji) }
    else s)

/-! ### Specification-side readings used to state the claims -/

/-- Points contributed by one submission: its mean rating times 10, or 0 when
it has no votes. -/
def submissionPoints (s : Submission) : Rat :=
  match s.votes with
  | some vs =>
    if 0 < vs.length then sumRatings vs / (vs.length : Rat) * 10 else 0
  | none => 0

/-- Mean rating of one submission (0 when it has no votes, since division by
zero is zero in Rat). -/
def subAvg (s : Submission) : Rat :=
  sumRatings (s.votes.getD []) / ((votesLen s : Nat) : Rat)

/-- The submissions of the user with key k, in list order. -/
def userSubs (k : Option String) (subs : List Submission) : List Submission :=
  subs.filter (fun s => s.userId = k)

/-- Look up the (unique) output entry with a given userId. -/
def lookupScore (k : Option String) (l : List UserScore) : Option UserScore :=
  l.find? (fun u => u.userId = k)

/-- Fold a block of submissions (all belonging to one user) into a score. -/
def processUser (u : UserScore) (T : List Submission) : UserScore :=
  T.foldl updateScore u

/-- The score a user's submission block produces, starting from the entry
created at the block's first submission; none when the block is empty. -/
def buildScore (T : List Submission) : Option UserScore :=
  match T with
  | [] => none
  | s :: _ => some (processUser (initScore s) T)

/-- Modelled from the spec: filterCurrentWeek returns the current-week
subsequence of the submissions, original relative order preserved, using the
engine's current-week test. -/
def filterCurrentWeek (subs : List Submission) (now : Int) : List Submission :=
  subs.filter (fun s => isCurrentWeek s.timestamp now)

/-- Modelled from the spec: computeScores is the single aggregation function
both leaderboards must use. -/
def computeScores : List Submission → List UserScore :=
  calculateUserScores

/-- Modelled from the spec: rank(submissions, now) =
(computeScores of the current-week slice, computeScores of the full list). -/
def rankSpec (subs : List Submission) (now : Int) :
    List UserScore × List UserScore :=
  (computeScores (filterCurrentWeek subs now), computeScores subs)

/-- Normalising a submission whose optional lists are absent to explicit
empty lists; the aggregation treats both the same. -/
def fillDefaults (s : Submission) : Submission :=
  { s with votes := some (s.votes.getD []),
           reactions := some (s.reactions.getD []) }

/-! ### Concrete sample data used in witnesses and counterexamples -/

/-- A submission by user u1 carrying a single vote with the given rating. -/
def exRated (r : Rat) : Submission :=
  { id := "s", userId := some "u1", userName := "U1", timestamp := 0,
    votes := some [{ userId := "p", rating := r }], reactions := none }

/-- A submission by user u1 with an empty votes list. -/
def exZeroVotes : Submission :=
  { id := "z", userId := some "u1", userName := "U1", timestamp := 0,
    votes := some [], reactions := none }

/-- A malformed submission: its userId is missing. -/
def exMalformed : Submission :=
  { id := "m", userId := none, userName := "anon", timestamp := 0,
    votes := none, reactions := none }

/-- The aggregate record produced for u1 by [exZeroVotes, exRated 5]. -/
def exC4out : UserScore :=
  { userId := some "u1", userName := "U1", totalPoints := 50,
    submissions := 2, averageRating := 5 / 2, streak := 0, reactions := 0,
    votes := 1 }

/-- The at-most-one-entry-per-user invariant on a submission's votes and
reactions lists. -/
def nodupVoters (s : Submission) : Prop :=
  ((s.votes.getD []).map Vote.userId).Nodup ∧
  ((s.reactions.getD []).map Reaction.userId).Nodup

/-- A submission already carrying one vote and one reaction by user u2. -/
def exVoted : Submission :=
  { id := "s", userId := some "u1", userName := "U1", timestamp := 0,
    votes := some [{ userId := "u2", rating := 4 }],
    reactions := some [{ userId := "u2", emoji := "fire" }] }

/-! ### Day-of-era views of the civil-date algorithm

civilFromDays factors through the day of the 400-year era
(doe = (days + 719468) mod 146097): the year is 400 * era plus a function of
doe, and the month and day of month are functions of doe alone.  The
era-local functions are mirrored on Nat (with explicit exactness guards on
the truncated subtractions) so that the finitely many needed facts can be
checked by kernel evaluation on fast Nat arithmetic. -/

def yoeOfDoe (doe : Int) : Int :=
  (doe - doe / 1460 + doe / 36524 - doe / 146096) / 365

def doyOfDoe (doe : Int) : Int :=
  doe - (365 * yoeOfDoe doe + yoeOfDoe doe / 4 - yoeOfDoe doe / 100)

def mpOfDoe (doe : Int) : Int := (5 * doyOfDoe doe + 2) / 153

def dOfDoe (doe : Int) : Int :=
  doyOfDoe doe - (153 * mpOfDoe doe + 2) / 5 + 1

def mOfDoe (doe : Int) : Int :=
  mpOfDoe doe + (if mpOfDoe doe < 10 then 3 else -9)

def yearAdjOfDoe (doe : Int) : Int :=
  yoeOfDoe doe + (if mOfDoe doe ≤ 2 then 1 else 0)

/-- The week key as a function of the week-start day number. -/
def weekKeyOfDays (w : Int) : Int × Int :=
  (getFullYear w, ceilDiv7 (getDate w - dayOfWeek w + 1))

def natYoe (n : Nat) : Nat := (n - n / 1460 + n / 36524 - n / 146096) / 365

def natYD (n : Nat) : Nat := 365 * natYoe n + natYoe n / 4 - natYoe n / 100

def natDoy (n : Nat) : Nat := n - natYD n

def natMp (n : Nat) : Nat := (5 * natDoy n + 2) / 153

def natOff (n : Nat) : Nat := (153 * natMp n + 2) / 5

def natD (n : Nat) : Nat := natDoy n - natOff n + 1

def natM (n : Nat) : Nat := if natMp n < 10 then natMp n + 3 else natMp n - 9

def natAdj (n : Nat) : Nat := natYoe n + (if natM n ≤ 2 then 1 else 0)

def natGuard (n : Nat) : Bool :=
  decide (natYD n ≤ n) && decide (natOff n ≤ natDoy n)

/-- Day of month, year adjustment and subtraction guards of one day of era,
staged through an explicit argument so that kernel evaluation shares the
intermediate values. -/
def natStep2 (n yoe : Nat) : Nat × Nat × Bool :=
  let yd := 365 * yoe + yoe / 4 - yoe / 100
  let doy := n - yd
  let mp := (5 * doy + 2) / 153
  let off := (153 * mp + 2) / 5
  let d := doy - off + 1
  let m := if mp < 10 then mp + 3 else mp - 9
  let adj := yoe + (if m ≤ 2 then 1 else 0)
  (d, adj, decide (yd ≤ n) && decide (off ≤ doy))

def natStep (n : Nat) : Nat × Nat × Bool := natStep2 n (natYoe n)

/-- The per-pair certificate: both guards hold and either the year
adjustment changes, or the day of month jumps by exactly 7 (same month), or
the month changes (day of month falls from the 22..31 range to 1..7). -/
def pairOk (a b : Nat × Nat × Bool) : Bool :=
  a.2.2 && b.2.2 &&
  (decide (b.2.1 ≠ a.2.1) || decide (b.1 = a.1 + 7) ||
    (decide (22 ≤ a.1) && decide (b.1 ≤ 7)))

def chainCheck : List (Nat × Nat × Bool) → Bool
  | [] => true
  | [_] => true
  | a :: b :: rest => pairOk a b && chainCheck (b :: rest)

/-- The steps of the Mondays of one 400-year era: day of era 7i + 5 for
i in [a, a + b). -/
def mondaySteps (a b : Nat) : List (Nat × Nat × Bool) :=
  (List.range' a b).map (fun i => natStep (7 * i + 5))

end Actify

namespace Actify

/-! ### Basic facts about one aggregation step -/

theorem updateScore_def_rated {vs : List Vote} (u : UserScore) (s : Submission)
    (hv : s.votes = some vs) (hl : 0 < vs.length) :
    updateScore u s =
      { userId := u.userId, userName := u.userName,
        totalPoints := u.totalPoints + sumRatings vs / (vs.length : Rat) * 10,
        submissions := u.submissions + 1,
        averageRating :=
          ((u.averageRating * (((u.submissions + 1 : Nat) : Rat) - 1)) +
              sumRatings vs / (vs.length : Rat)) / ((u.submissions + 1 : Nat) : Rat),
        streak := u.streak, reactions := u.reactions + reactionsLen s,
        votes := u.votes + votesLen s } := by
  simp only [updateScore, hv, hl, if_pos]

theorem updateScore_def_unrated (u : UserScore) (s : Submission)
    (h : votesLen s = 0) :
    updateScore u s =
      { u with submissions := u.submissions + 1,
               reactions := u.reactions + reactionsLen s,
               votes := u.votes + votesLen s } := by
  rcases hv : s.votes with _ | vs
  · simp only [updateScore, hv]
  · have hl : vs.length = 0 := by simpa [votesLen, hv] using h
    simp only [updateScore, hv, hl]
    rw [if_neg (lt_irrefl 0)]

theorem updateScore_userId (u : UserScore) (s : Submission) :
    (updateScore u s).userId = u.userId := by
  rcases hv : s.votes with _ | vs
  · rw [updateScore_def_unrated u s (by simp [votesLen, hv])]
  · rcases Nat.eq_zero_or_pos vs.length with hl | hl
    · rw [updateScore_def_unrated u s (by simp [votesLen, hv, hl])]
    · rw [updateScore_def_rated u s hv hl]

theorem updateScore_submissions (u : UserScore) (s : Submission) :
    (updateScore u s).submissions = u.submissions + 1 := by
  rcases hv : s.votes with _ | vs
  · rw [updateScore_def_unrated u s (by simp [votesLen, hv])]
  · rcases Nat.eq_zero_or_pos vs.length with hl | hl
    · rw [updateScore_def_unrated u s (by simp [votesLen, hv, hl])]
    · rw [updateScore_def_rated u s hv hl]

theorem updateScore_totalPoints (u : UserScore) (s : Submission) :
    (updateScore u s).totalPoints = u.totalPoints + submissionPoints s := by
  rcases hv : s.votes with _ | vs
  · rw [updateScore_def_unrated u s (by simp [votesLen, hv])]
    simp [submissionPoints, hv]
  · rcases Nat.eq_zero_or_pos vs.length with hl | hl
    · rw [updateScore_def_unrated u s (by simp [votesLen, hv, hl])]
      simp [submissionPoints, hv, hl]
    · rw [updateScore_def_rated u s hv hl]
      simp [submissionPoints, hv, hl]

end Actify

namespace Actify

/-! ### Looking up a user in the accumulator -/

theorem lookupScore_nil (k : Option String) : lookupScore k [] = none := rfl

theorem lookupScore_cons (u : UserScore) (l : List UserScore) (k : Option String) :
    lookupScore k (u :: l) = if u.userId = k then some u else lookupScore k l := by
  by_cases h : u.userId = k
  · simp [lookupScore, List.find?_cons, h]
  · simp [lookupScore, List.find?_cons, h]

theorem upsert_nil (s : Submission) :
    upsert [] s = [updateScore (initScore s) s] := rfl

theorem upsert_cons (u : UserScore) (rest : List UserScore) (s : Submission) :
    upsert (u :: rest) s =
      if u.userId = s.userId then updateScore u s :: rest
      else u :: upsert rest s := rfl

theorem lookupScore_upsert_self (acc : List UserScore) (s : Submission) :
    lookupScore s.userId (upsert acc s) =
      some (updateScore ((lookupScore s.userId acc).getD (initScore s)) s) := by
  induction acc with
  | nil =>
    rw [upsert_nil, lookupScore_cons,
      if_pos (by rw [updateScore_userId]; rfl), lookupScore_nil]
    rfl
  | cons u rest ih =>
    by_cases h : u.userId = s.userId
    · rw [upsert_cons, if_pos h, lookupScore_cons,
        if_pos (by rw [updateScore_userId]; exact h), lookupScore_cons, if_pos h]
      rfl
    · rw [upsert_cons, if_neg h, lookupScore_cons, if_neg h,
        lookupScore_cons, if_neg h, ih]

theorem lookupScore_upsert_of_ne (acc : List UserScore) (s : Submission)
    (k : Option String) (h : k ≠ s.userId) :
    lookupScore k (upsert acc s) = lookupScore k acc := by
  induction acc with
  | nil =>
    rw [upsert_nil, lookupScore_cons,
      if_neg (by rw [updateScore_userId]; exact fun he => h he.symm), lookupScore_nil]
  | cons u rest ih =>
    by_cases hu : u.userId = s.userId
    · rw [upsert_cons, if_pos hu, lookupScore_cons,
        if_neg (by rw [updateScore_userId, hu]; exact fun he => h he.symm),
        lookupScore_cons, if_neg (by rw [hu]; exact fun he => h he.symm)]
    · by_cases hk : u.userId = k
      · rw [upsert_cons, if_neg hu, lookupScore_cons, if_pos hk,
          lookupScore_cons, if_pos hk]
      · rw [upsert_cons, if_neg hu, lookupScore_cons, if_neg hk,
          lookupScore_cons, if_neg hk, ih]

end Actify

namespace Actify

/-! ### The aggregation characterised per user -/

theorem userSubs_nil (k : Option String) : userSubs k [] = [] := rfl

theorem userSubs_cons (k : Option String) (s : Submission) (S : List Submission) :
    userSubs k (s :: S) =
      if s.userId = k then s :: userSubs k S else userSubs k S := by
  by_cases h : s.userId = k <;> simp [userSubs, List.filter_cons, h]

theorem processUser_nil (u : UserScore) : processUser u [] = u := rfl

theorem processUser_cons (u : UserScore) (s : Submission) (T : List Submission) :
    processUser u (s :: T) = processUser (updateScore u s) T := rfl

theorem lookupScore_foldl_some (S : List Submission) :
    ∀ (acc : List UserScore) (k : Option String) (u : UserScore),
      lookupScore k acc = some u →
      lookupScore k (S.foldl upsert acc) = some (processUser u (userSubs k S)) := by
  induction S with
  | nil =>
    intro acc k u h
    simpa [userSubs_nil, processUser_nil] using h
  | cons s S ih =>
    intro acc k u h
    rw [List.foldl_cons, userSubs_cons]
    by_cases hs : s.userId = k
    · rw [if_pos hs, processUser_cons]
      refine ih (upsert acc s) k (updateScore u s) ?_
      rw [← hs] at h ⊢
      rw [lookupScore_upsert_self, h]
      rfl
    · rw [if_neg hs]
      refine ih (upsert acc s) k u ?_
      rw [lookupScore_upsert_of_ne acc s k (fun he => hs he.symm), h]

theorem lookupScore_foldl_none (S : List Submission) :
    ∀ (acc : List UserScore) (k : Option String),
      lookupScore k acc = none →
      lookupScore k (S.foldl upsert acc) = buildScore (userSubs k S) := by
  induction S with
  | nil =>
    intro acc k h
    simpa [userSubs_nil, buildScore] using h
  | cons s S ih =>
    intro acc k h
    rw [List.foldl_cons, userSubs_cons]
    by_cases hs : s.userId = k
    · rw [if_pos hs]
      have h1 : lookupScore k (upsert acc s) =
          some (updateScore (initScore s) s) := by
        rw [← hs] at h ⊢
        rw [lookupScore_upsert_self, h]
        rfl
      rw [lookupScore_foldl_some S (upsert acc s) k _ h1]
      rfl
    · rw [if_neg hs]
      refine ih (upsert acc s) k ?_
      rw [lookupScore_upsert_of_ne acc s k (fun he => hs he.symm), h]

theorem lookupScore_aggregate (S : List Submission) (k : Option String) :
    lookupScore k (aggregate S) = buildScore (userSubs k S) :=
  lookupScore_foldl_none S [] k rfl

end Actify

namespace Actify

/-! ### Output keys are unique, so sorting does not disturb lookups -/

theorem upsert_map_userId (acc : List UserScore) (s : Submission) :
    (upsert acc s).map UserScore.userId =
      if s.userId ∈ acc.map UserScore.userId then acc.map UserScore.userId
      else acc.map UserScore.userId ++ [s.userId] := by
  induction acc with
  | nil =>
    simp [upsert_nil, updateScore_userId, initScore]
  | cons u rest ih =>
    by_cases h : u.userId = s.userId
    · rw [upsert_cons, if_pos h]
      simp [updateScore_userId, h]
    · rw [upsert_cons, if_neg h]
      by_cases hm : s.userId ∈ rest.map UserScore.userId
      · simp only [List.map_cons, ih, if_pos hm,
          List.mem_cons, hm, or_true, if_pos]
      · have : ¬s.userId ∈ (u.userId :: rest.map UserScore.userId) := by
          simp only [List.mem_cons, not_or]
          exact ⟨fun he => h he.symm, hm⟩
        simp only [List.map_cons, ih, if_neg hm, if_neg this, List.cons_append]

theorem upsert_nodup (acc : List UserScore) (s : Submission)
    (h : (acc.map UserScore.userId).Nodup) :
    ((upsert acc s).map UserScore.userId).Nodup := by
  rw [upsert_map_userId]
  by_cases hm : s.userId ∈ acc.map UserScore.userId
  · rwa [if_pos hm]
  · rw [if_neg hm, List.nodup_append]
    exact ⟨h, List.nodup_singleton _, by simpa [List.Disjoint] using hm⟩

theorem foldl_upsert_nodup (S : List Submission) :
    ∀ acc : List UserScore, (acc.map UserScore.userId).Nodup →
      ((S.foldl upsert acc).map UserScore.userId).Nodup := by
  induction S with
  | nil => intro acc h; simpa using h
  | cons s S ih =>
    intro acc h
    rw [List.foldl_cons]
    exact ih (upsert acc s) (upsert_nodup acc s h)

theorem aggregate_nodup (S : List Submission) :
    ((aggregate S).map UserScore.userId).Nodup :=
  foldl_upsert_nodup S [] (by simp)

theorem find?_perm_unique {α : Type} {l l' : List α} {p : α → Bool}
    (hperm : l.Perm l')
    (huniq : ∀ a ∈ l, ∀ b ∈ l, p a = true → p b = true → a = b) :
    l.find? p = l'.find? p := by
  rcases h : l.find? p with _ | a
  · rcases h' : l'.find? p with _ | b
    · rfl
    · exfalso
      have hb : b ∈ l := hperm.mem_iff.mpr (List.mem_of_find?_eq_some h')
      exact (List.find?_eq_none.mp h) b hb (List.find?_some h')
  · have pa := List.find?_some h
    have ma : a ∈ l := List.mem_of_find?_eq_some h
    rcases h' : l'.find? p with _ | b
    · exfalso
      exact (List.find?_eq_none.mp h') a (hperm.mem_iff.mp ma) pa
    · have pb := List.find?_some h'
      have mb : b ∈ l := hperm.mem_iff.mpr (List.mem_of_find?_eq_some h')
      rw [huniq a ma b mb pa pb]

theorem lookupScore_calc (S : List Submission) (k : Option String) :
    lookupScore k (calculateUserScores S) = lookupScore k (aggregate S) := by
  unfold lookupScore calculateUserScores
  refine find?_perm_unique (List.mergeSort_perm (aggregate S) scoreLE) ?_
  intro a ha b hb hpa hpb
  have ha' : a ∈ aggregate S :=
    (List.mergeSort_perm (aggregate S) scoreLE).mem_iff.mp ha
  have hb' : b ∈ aggregate S :=
    (List.mergeSort_perm (aggregate S) scoreLE).mem_iff.mp hb
  have hak : a.userId = k := by simpa using hpa
  have hbk : b.userId = k := by simpa using hpb
  exact List.inj_on_of_nodup_map (aggregate_nodup S) ha' hb' (hak.trans hbk.symm)

theorem lookupScore_calculateUserScores (S : List Submission) (k : Option String) :
    lookupScore k (calculateUserScores S) = buildScore (userSubs k S) := by
  rw [lookupScore_calc, lookupScore_aggregate]

end Actify

namespace Actify

/-! ### totalPoints, submission count and running mean of a user block -/

theorem updateScore_averageRating_rated (u : UserScore) (s : Submission)
    (h : 0 < votesLen s) :
    (updateScore u s).averageRating =
      ((u.averageRating * (((u.submissions + 1 : Nat) : Rat) - 1)) + subAvg s) /
        ((u.submissions + 1 : Nat) : Rat) := by
  rcases hv : s.votes with _ | vs
  · simp [votesLen, hv] at h
  · have hl : 0 < vs.length := by simpa [votesLen, hv] using h
    rw [updateScore_def_rated u s hv hl]
    simp [subAvg, hv, votesLen]

theorem updateScore_averageRating_unrated (u : UserScore) (s : Submission)
    (h : votesLen s = 0) :
    (updateScore u s).averageRating = u.averageRating := by
  rw [updateScore_def_unrated u s h]

theorem processUser_totalPoints (T : List Submission) :
    ∀ u : UserScore,
      (processUser u T).totalPoints =
        u.totalPoints + (T.map submissionPoints).sum := by
  induction T with
  | nil => intro u; simp [processUser_nil]
  | cons s T ih =>
    intro u
    rw [processUser_cons, ih, updateScore_totalPoints]
    simp [add_assoc]

theorem processUser_submissions (T : List Submission) :
    ∀ u : UserScore,
      (processUser u T).submissions = u.submissions + T.length := by
  induction T with
  | nil => intro u; simp [processUser_nil]
  | cons s T ih =>
    intro u
    rw [processUser_cons, ih, updateScore_submissions]
    simp [Nat.add_assoc, Nat.add_comm 1]

theorem processUser_avg_mul (T : List Submission) :
    ∀ u : UserScore, (∀ s ∈ T, 0 < votesLen s) →
      (processUser u T).averageRating * ((u.submissions + T.length : Nat) : Rat) =
        u.averageRating * ((u.submissions : Nat) : Rat) + (T.map subAvg).sum := by
  induction T with
  | nil => intro u _; simp [processUser_nil]
  | cons s T ih =>
    intro u hT
    have hs : 0 < votesLen s := hT s (List.mem_cons_self s T)
    have hT' : ∀ x ∈ T, 0 < votesLen x := fun x hx => hT x (List.mem_cons_of_mem s hx)
    have hlen : u.submissions + (s :: T).length =
        (updateScore u s).submissions + T.length := by
      rw [updateScore_submissions]
      simp [List.length_cons]
      omega
    rw [processUser_cons, hlen, ih (updateScore u s) hT',
      updateScore_submissions, updateScore_averageRating_rated u s hs]
    have hne : (((u.submissions + 1 : Nat) : Rat)) ≠ 0 :=
      Nat.cast_ne_zero.mpr (Nat.succ_ne_zero _)
    rw [div_mul_cancel₀ _ hne]
    simp only [List.map_cons, List.sum_cons]
    push_cast
    ring

theorem buildScore_nil : buildScore [] = none := rfl

theorem buildScore_cons (s : Submission) (T : List Submission) :
    buildScore (s :: T) = some (processUser (initScore s) (s :: T)) := rfl

theorem buildScore_eq_none_iff (T : List Submission) :
    buildScore T = none ↔ T = [] := by
  cases T <;> simp [buildScore_nil, buildScore_cons]

theorem buildScore_totalPoints (T : List Submission) (w : UserScore)
    (h : buildScore T = some w) :
    w.totalPoints = (T.map submissionPoints).sum ∧ w.submissions = T.length := by
  cases T with
  | nil => simp [buildScore_nil] at h
  | cons s T =>
    rw [buildScore_cons] at h
    have hw := (Option.some.injEq _ _).mp h
    subst hw
    constructor
    · rw [processUser_totalPoints]
      simp [initScore]
    · rw [processUser_submissions]
      simp [initScore]

theorem buildScore_averageRating (T : List Submission) (w : UserScore)
    (h : buildScore T = some w) (hT : ∀ s ∈ T, 0 < votesLen s) :
    w.averageRating = (T.map subAvg).sum / ((T.length : Nat) : Rat) := by
  cases T with
  | nil => simp [buildScore_nil] at h
  | cons s T =>
    rw [buildScore_cons] at h
    have hw := (Option.some.injEq _ _).mp h
    subst hw
    have hmul := processUser_avg_mul (s :: T) (initScore s) hT
    have hz : (initScore s).submissions = 0 := rfl
    rw [hz] at hmul
    have hne : ((((s :: T).length : Nat)) : Rat) ≠ 0 := by
      simp [List.length_cons]
      exact Nat.cast_add_one_ne_zero T.length
    rw [eq_div_iff hne]
    simpa [initScore] using hmul
end Actify

namespace Actify

/-! ### Claim C4 -/

/-- C4: for every submission list and every user key, the totalPoints of that
user's output entry is the sum over the user's submissions of the
submission's mean rating times 10 (a zero-vote submission contributing 0),
and the entry's submission count is the number of the user's submissions. -/
theorem c4_totalPoints_is_sum (S : List Submission) (k : Option String)
    (u : UserScore) (h : lookupScore k (calculateUserScores S) = some u) :
    u.totalPoints = ((userSubs k S).map submissionPoints).sum ∧
    u.submissions = (userSubs k S).length := by
  rw [lookupScore_calculateUserScores] at h
  exact buildScore_totalPoints _ _ h

/-- Witness for C4 at the spec's example: one zero-vote submission plus one
submission with a single rating-5 vote gives submissionCount 2 and
totalPoints 50. -/
theorem c4_totalPoints_is_sum_witness :
    ((processUser (initScore exZeroVotes) [exZeroVotes, exRated 5]).totalPoints =
        ((userSubs (some "u1") [exZeroVotes, exRated 5]).map submissionPoints).sum ∧
      (processUser (initScore exZeroVotes) [exZeroVotes, exRated 5]).submissions =
        (userSubs (some "u1") [exZeroVotes, exRated 5]).length) ∧
    (processUser (initScore exZeroVotes) [exZeroVotes, exRated 5]).totalPoints = 50 ∧
    (processUser (initScore exZeroVotes) [exZeroVotes, exRated 5]).submissions = 2 := by
  refine ⟨c4_totalPoints_is_sum [exZeroVotes, exRated 5] (some "u1") _ ?_, ?_, ?_⟩
  · rw [lookupScore_calculateUserScores]
    rfl
  · show (updateScore (updateScore (initScore exZeroVotes) exZeroVotes)
        (exRated 5)).totalPoints = 50
    rw [updateScore_totalPoints, updateScore_totalPoints]
    norm_num [submissionPoints, exRated, exZeroVotes, sumRatings, initScore]
  · show (updateScore (updateScore (initScore exZeroVotes) exZeroVotes)
        (exRated 5)).submissions = 2
    rw [updateScore_submissions, updateScore_submissions]
    rfl

/-! ### Claim C3 -/

/-- Counterexample to C3: on the spec's Scenario A input (two submissions by
u1 carrying single votes rated 5 and 3) the aggregation does not give
totalPoints 40. -/
theorem c3_counterexample :
    (lookupScore (some "u1")
        (calculateUserScores [exRated 5, exRated 3])).map UserScore.totalPoints ≠
      some 40 := by
  rw [lookupScore_calculateUserScores,
    show buildScore (userSubs (some "u1") [exRated 5, exRated 3]) =
      some (processUser (initScore (exRated 5)) [exRated 5, exRated 3]) from rfl]
  simp only [Option.map_some', ne_eq, Option.some.injEq]
  rw [show processUser (initScore (exRated 5)) [exRated 5, exRated 3] =
      updateScore (updateScore (initScore (exRated 5)) (exRated 5)) (exRated 3)
      from rfl, updateScore_totalPoints, updateScore_totalPoints]
  norm_num [submissionPoints, exRated, sumRatings, initScore]

/-- C3 as amended: on Scenario A the aggregation gives totalPoints 80
(50 + 30, the sum of the two per-submission mean ratings times 10, not the
overall mean times 10) and submissionCount 2. -/
theorem c3_amended_scenarioA :
    (lookupScore (some "u1")
        (calculateUserScores [exRated 5, exRated 3])).map UserScore.totalPoints =
      some 80 ∧
    (lookupScore (some "u1")
        (calculateUserScores [exRated 5, exRated 3])).map UserScore.submissions =
      some 2 := by
  rw [lookupScore_calculateUserScores,
    show buildScore (userSubs (some "u1") [exRated 5, exRated 3]) =
      some (processUser (initScore (exRated 5)) [exRated 5, exRated 3]) from rfl]
  simp only [Option.map_some', Option.some.injEq]
  rw [show processUser (initScore (exRated 5)) [exRated 5, exRated 3] =
      updateScore (updateScore (initScore (exRated 5)) (exRated 5)) (exRated 3)
      from rfl]
  constructor
  · rw [updateScore_totalPoints, updateScore_totalPoints]
    norm_num [submissionPoints, exRated, sumRatings, initScore]
  · rw [updateScore_submissions, updateScore_submissions]
    rfl

/-! ### Claim C9 -/

unseal List.merge List.mergeSort in
/-- C9: the aggregation returns the empty array on the empty input, and the
combined ranking returns an empty weekly and an empty all-time list. -/
theorem c9_empty_input :
    calculateUserScores [] = [] ∧ ∀ now : Int, Leaderboard [] now = ([], []) :=
  ⟨rfl, fun _ => rfl⟩

/-! ### Claim C6 -/

/-- C6: the output of the aggregation is sorted descending by totalPoints:
every adjacent pair (a, b) satisfies a.totalPoints >= b.totalPoints. -/
theorem c6_sorted_by_totalPoints (S : List Submission) :
    List.Chain' (fun a b => b.totalPoints ≤ a.totalPoints)
      (calculateUserScores S) := by
  have h := @List.sorted_mergeSort UserScore scoreLE
    (fun a b c hab hbc => by
      simp only [scoreLE, decide_eq_true_eq] at hab hbc ⊢
      exact le_trans hbc hab)
    (fun a b => by
      simp only [scoreLE, Bool.or_eq_true, decide_eq_true_eq]
      exact le_total b.totalPoints a.totalPoints)
    (aggregate S)
  exact (h.imp (fun hab => by simpa [scoreLE] using hab)).chain'

/-! ### Claim C7 -/

/-- C7: the weekly and all-time leaderboards are the one aggregation function
applied to the current-week slice and to the full list respectively, the
filter preserving the original relative order (it yields a sublist). -/
theorem c7_rank_composition (subs : List Submission) (now : Int) :
    Leaderboard subs now = rankSpec subs now ∧
    (filterCurrentWeek subs now).Sublist subs :=
  ⟨rfl, List.filter_sublist subs⟩

end Actify

namespace Actify

/-! ### Claim C5 -/

unseal List.merge List.mergeSort in
/-- Counterexample to C5: a single submission missing its userId is not
skipped; the aggregation output differs from the output on the input with
the malformed entry absent (an extra entry appears). -/
theorem c5_counterexample :
    calculateUserScores [exMalformed] ≠ calculateUserScores [] := by decide

/-- C5 as amended: a submission missing its userId is not skipped; it is
grouped under the missing key, so every present user's entry is unchanged
while one extra entry (under the missing userId) appears.  (A submission
missing its timestamp is processed like any other: the aggregation never
reads the timestamp.) -/
theorem c5_amended_not_skipped (S : List Submission) (id nm : String)
    (ts : Int) (v : Option (List Vote)) (r : Option (List Reaction))
    (uid : String) :
    lookupScore (some uid)
        (calculateUserScores (S ++ [⟨id, none, nm, ts, v, r⟩])) =
      lookupScore (some uid) (calculateUserScores S) ∧
    (lookupScore none
        (calculateUserScores (S ++ [⟨id, none, nm, ts, v, r⟩]))).isSome = true := by
  constructor
  · rw [lookupScore_calculateUserScores, lookupScore_calculateUserScores]
    have h1 : userSubs (some uid) (S ++ [⟨id, none, nm, ts, v, r⟩]) =
        userSubs (some uid) S := by
      unfold userSubs
      rw [List.filter_append]
      simp
    rw [h1]
  · rw [lookupScore_calculateUserScores]
    have h2 : userSubs none (S ++ [⟨id, none, nm, ts, v, r⟩]) =
        userSubs none S ++ [⟨id, none, nm, ts, v, r⟩] := by
      unfold userSubs
      rw [List.filter_append]
      simp
    rw [h2, ← Option.ne_none_iff_isSome, Ne, buildScore_eq_none_iff]
    simp

/-! ### Claim C10 -/

/-- C10: the aggregation treats an absent votes or reactions field as the
empty list (normalising the optional fields to explicit empty lists does not
change the output), and a submission with both fields absent only increments
the author's submission count: reaction and vote counters gain 0, and
totalPoints and averageRating are untouched; no failure occurs (the
embedding is total). -/
theorem c10_absent_fields :
    (∀ S : List Submission,
      calculateUserScores (S.map fillDefaults) = calculateUserScores S) ∧
    (∀ (u : UserScore) (id nm : String) (uid : Option String) (ts : Int),
      updateScore u ⟨id, uid, nm, ts, none, none⟩ =
        { u with submissions := u.submissions + 1 }) := by
  have hlen : ∀ s, votesLen (fillDefaults s) = votesLen s := by
    intro s
    rcases hv : s.votes with _ | vs <;> simp [votesLen, fillDefaults, hv]
  have hrlen : ∀ s, reactionsLen (fillDefaults s) = reactionsLen s := by
    intro s
    rcases hr : s.reactions with _ | rs <;> simp [reactionsLen, fillDefaults, hr]
  have hupd : ∀ u s, updateScore u (fillDefaults s) = updateScore u s := by
    intro u s
    rcases hv : s.votes with _ | vs
    · rw [updateScore_def_unrated u (fillDefaults s) (by rw [hlen]; simp [votesLen, hv]),
        updateScore_def_unrated u s (by simp [votesLen, hv]), hlen, hrlen]
    · rcases Nat.eq_zero_or_pos vs.length with hl | hl
      · rw [updateScore_def_unrated u (fillDefaults s)
            (by rw [hlen]; simp [votesLen, hv, hl]),
          updateScore_def_unrated u s (by simp [votesLen, hv, hl]), hlen, hrlen]
      · have hv' : (fillDefaults s).votes = some vs := by simp [fillDefaults, hv]
        rw [updateScore_def_rated u (fillDefaults s) hv' hl,
          updateScore_def_rated u s hv hl, hlen, hrlen]
  have huserId : ∀ s, (fillDefaults s).userId = s.userId := fun s => rfl
  have hinit : ∀ s, initScore (fillDefaults s) = initScore s := fun s => rfl
  have hupsert : ∀ acc s, upsert acc (fillDefaults s) = upsert acc s := by
    intro acc s
    induction acc with
    | nil => rw [upsert_nil, upsert_nil, hinit, hupd]
    | cons u rest ih =>
      rw [upsert_cons, upsert_cons, huserId, ih, hupd]
  have hfold : ∀ (S : List Submission) (acc : List UserScore),
      (S.map fillDefaults).foldl upsert acc = S.foldl upsert acc := by
    intro S
    induction S with
    | nil => intro acc; rfl
    | cons s S ih =>
      intro acc
      rw [List.map_cons, List.foldl_cons, List.foldl_cons, hupsert, ih]
  constructor
  · intro S
    unfold calculateUserScores aggregate
    rw [hfold]
  · intro u id nm uid ts
    rw [updateScore_def_unrated u ⟨id, uid, nm, ts, none, none⟩ rfl]
    simp [reactionsLen, votesLen]

end Actify

namespace Actify

/-! ### Claim C1 -/

/-- Counterexample to C1: swapping a zero-vote submission with a rated one
changes u1's final averageRating (5 versus 5/2), because the running-mean
update divides by the total submission count at processing time while being
skipped on zero-vote submissions. -/
theorem c1_counterexample :
    ([exRated 5, exZeroVotes].Perm [exZeroVotes, exRated 5]) ∧
    (lookupScore (some "u1")
        (calculateUserScores [exRated 5, exZeroVotes])).map UserScore.averageRating ≠
      (lookupScore (some "u1")
        (calculateUserScores [exZeroVotes, exRated 5])).map UserScore.averageRating := by
  constructor
  · exact List.Perm.swap exZeroVotes (exRated 5) []
  · rw [lookupScore_calculateUserScores, lookupScore_calculateUserScores,
      show buildScore (userSubs (some "u1") [exRated 5, exZeroVotes]) =
        some (updateScore (updateScore (initScore (exRated 5)) (exRated 5))
          exZeroVotes) from rfl,
      show buildScore (userSubs (some "u1") [exZeroVotes, exRated 5]) =
        some (updateScore (updateScore (initScore exZeroVotes) exZeroVotes)
          (exRated 5)) from rfl]
    simp only [Option.map_some', ne_eq, Option.some.injEq]
    rw [updateScore_averageRating_unrated _ exZeroVotes (by simp [votesLen, exZeroVotes]),
      updateScore_averageRating_rated _ (exRated 5) (by simp [votesLen, exRated]),
      updateScore_averageRating_rated _ (exRated 5) (by simp [votesLen, exRated]),
      updateScore_averageRating_unrated _ exZeroVotes (by simp [votesLen, exZeroVotes]),
      updateScore_submissions]
    norm_num [subAvg, exRated, exZeroVotes, sumRatings, votesLen, initScore]

/-- C1 as amended: under any permutation of the submission list every user
keeps the same final totalPoints; the final averageRating is also preserved
provided each of the user's submissions carries at least one vote (with a
zero-vote submission present it is order-dependent, as the counterexample
shows). -/
theorem c1_order_invariance (S S' : List Submission) (hp : S.Perm S')
    (k : Option String) :
    (lookupScore k (calculateUserScores S)).map UserScore.totalPoints =
      (lookupScore k (calculateUserScores S')).map UserScore.totalPoints ∧
    ((∀ s ∈ userSubs k S, 0 < votesLen s) →
      (lookupScore k (calculateUserScores S)).map UserScore.averageRating =
        (lookupScore k (calculateUserScores S')).map UserScore.averageRating) := by
  have hperm : (userSubs k S).Perm (userSubs k S') := hp.filter _
  rw [lookupScore_calculateUserScores, lookupScore_calculateUserScores]
  rcases hT : userSubs k S with _ | ⟨s, T⟩
  · have h0 : userSubs k S' = [] := by
      rw [hT] at hperm
      exact hperm.symm.eq_nil
    rw [h0, buildScore_nil]
    exact ⟨rfl, fun _ => rfl⟩
  · rcases hT' : userSubs k S' with _ | ⟨s', T'⟩
    · rw [hT, hT'] at hperm
      exact absurd hperm.eq_nil (by simp)
    · rw [hT, hT'] at hperm
      rw [buildScore_cons, buildScore_cons]
      have t1 := buildScore_totalPoints (s :: T) _ (buildScore_cons s T)
      have t2 := buildScore_totalPoints (s' :: T') _ (buildScore_cons s' T')
      constructor
      · simp only [Option.map_some', Option.some.injEq]
        rw [t1.1, t2.1, (hperm.map submissionPoints).sum_eq]
      · intro hall
        have hall' : ∀ x ∈ s' :: T', 0 < votesLen x := fun x hx =>
          hall x (hperm.mem_iff.mpr hx)
        have a1 := buildScore_averageRating (s :: T) _ (buildScore_cons s T) hall
        have a2 := buildScore_averageRating (s' :: T') _ (buildScore_cons s' T') hall'
        simp only [Option.map_some', Option.some.injEq]
        rw [a1, a2, hperm.length_eq, (hperm.map subAvg).sum_eq]

/-- Witness for C1 at a concrete permutation pair with all submissions
rated: both totalPoints and averageRating agree. -/
theorem c1_order_invariance_witness :
    ([exRated 3, exRated 5].Perm [exRated 5, exRated 3]) ∧
    ((lookupScore (some "u1")
        (calculateUserScores [exRated 3, exRated 5])).map UserScore.totalPoints =
      (lookupScore (some "u1")
        (calculateUserScores [exRated 5, exRated 3])).map UserScore.totalPoints ∧
    ((∀ s ∈ userSubs (some "u1") [exRated 3, exRated 5], 0 < votesLen s) →
      (lookupScore (some "u1")
          (calculateUserScores [exRated 3, exRated 5])).map UserScore.averageRating =
        (lookupScore (some "u1")
          (calculateUserScores [exRated 5, exRated 3])).map UserScore.averageRating)) :=
  ⟨List.Perm.swap (exRated 5) (exRated 3) [],
    c1_order_invariance [exRated 3, exRated 5] [exRated 5, exRated 3]
      (List.Perm.swap (exRated 5) (exRated 3) []) (some "u1")⟩

end Actify

namespace Actify

/-! ### Claim C8 -/

theorem set_eq_self_of_getElem? {α : Type} (l : List α) (i : Nat) (a : α)
    (h : l[i]? = some a) : l.set i a = l := by
  induction l generalizing i with
  | nil => simp at h
  | cons b l ih =>
    cases i with
    | zero =>
      simp only [List.getElem?_cons_zero, Option.some.injEq] at h
      rw [← h]
      rfl
    | succ i =>
      simp only [List.getElem?_cons_succ] at h
      rw [List.set_cons_succ, ih i h]

theorem applyVote_nodup (vs : List Vote) (uid : String) (rating : Rat)
    (h : (vs.map Vote.userId).Nodup) :
    ((applyVote vs uid rating).map Vote.userId).Nodup := by
  unfold applyVote
  rcases hf : vs.findIdx? (fun v => v.userId = uid) with _ | i <;> rw [hf]
  · have hnot : ∀ y ∈ vs, y.userId ≠ uid := by
      intro y hy
      have := List.findIdx?_eq_none_iff.mp hf y hy
      simpa using this
    rw [List.map_append, List.nodup_append]
    refine ⟨h, by simp, ?_⟩
    intro a ha hb
    simp only [List.map_cons, List.map_nil, List.mem_singleton] at hb
    obtain ⟨y, hy, hya⟩ := List.mem_map.mp ha
    exact hnot y hy (hya.trans hb)
  · obtain ⟨hlt, hp, -⟩ := List.findIdx?_eq_some_iff_getElem.mp hf
    have hkey : vs[i].userId = uid := by simpa using hp
    rw [List.map_set]
    have hmap : (vs.map Vote.userId)[i]? = some uid := by
      rw [List.getElem?_map, List.getElem?_eq_getElem hlt]
      simp [hkey]
    rw [set_eq_self_of_getElem? _ _ _ hmap]
    exact h

theorem applyReaction_nodup (rs : List Reaction) (uid emoji : String)
    (h : (rs.map Reaction.userId).Nodup) :
    ((applyReaction rs uid emoji).map Reaction.userId).Nodup := by
  unfold applyReaction
  rcases hf : rs.findIdx? (fun r => r.userId = uid) with _ | i <;> rw [hf]
  · have hnot : ∀ y ∈ rs, y.userId ≠ uid := by
      intro y hy
      have := List.findIdx?_eq_none_iff.mp hf y hy
      simpa using this
    rw [List.map_append, List.nodup_append]
    refine ⟨h, by simp, ?_⟩
    intro a ha hb
    simp only [List.map_cons, List.map_nil, List.mem_singleton] at hb
    obtain ⟨y, hy, hya⟩ := List.mem_map.mp ha
    exact hnot y hy (hya.trans hb)
  · obtain ⟨hlt, hp, -⟩ := List.findIdx?_eq_some_iff_getElem.mp hf
    have hkey : rs[i].userId = uid := by simpa using hp
    rw [List.map_set]
    have hmap : (rs.map Reaction.userId)[i]? = some uid := by
      rw [List.getElem?_map, List.getElem?_eq_getElem hlt]
      simp [hkey]
    rw [set_eq_self_of_getElem? _ _ _ hmap]
    exact h

theorem voteOne_nodup (s : Submission) (sid uid : String) (rating : Rat)
    (s' : Submission) (h : nodupVoters s)
    (he : voteOne s sid uid rating = some s') : nodupVoters s' := by
  unfold voteOne at he
  by_cases hid : s.id = sid
  · rw [if_pos hid] at he
    rcases hv : s.votes with _ | vs
    · rw [hv] at he
      simp at he
    · rw [hv] at he
      simp only [Option.some.injEq] at he
      subst he
      constructor
      · have h1 : (vs.map Vote.userId).Nodup := by
          have := h.1
          rw [hv] at this
          simpa using this
        simpa using applyVote_nodup vs uid rating h1
      · exact h.2
  · rw [if_neg hid] at he
    simp only [Option.some.injEq] at he
    subst he
    exact h

theorem handleVote_mem (subs : List Submission) (sid uid : String)
    (rating : Rat) :
    ∀ subs', handleVote subs sid uid rating = some subs' →
      ∀ s' ∈ subs', ∃ s ∈ subs, voteOne s sid uid rating = some s' := by
  induction subs with
  | nil =>
    intro subs' he s' hs'
    simp only [handleVote, Option.some.injEq] at he
    subst he
    simp at hs'
  | cons s rest ih =>
    intro subs' he s' hs'
    rcases h1 : voteOne s sid uid rating with _ | s1
    · rw [handleVote, h1] at he
      simp at he
    · rcases h2 : handleVote rest sid uid rating with _ | rest1
      · rw [handleVote, h1, h2] at he
        simp at he
      · rw [handleVote, h1, h2] at he
        simp only [Option.some.injEq] at he
        subst he
        rcases List.mem_cons.mp hs' with h | h
        · exact ⟨s, List.mem_cons_self s rest, h ▸ h1⟩
        · obtain ⟨x, hx, hxe⟩ := ih rest1 h2 s' h
          exact ⟨x, List.mem_cons_of_mem s hx, hxe⟩

/-- C8: on a state where every submission's votes and reactions lists hold
at most one entry per distinct userId, handleVote (when it succeeds) and
handleReact preserve that invariant: an existing entry of the acting user is
replaced in place, otherwise one new entry is appended. -/
theorem c8_handlers_preserve_nodup (subs : List Submission)
    (sid uid emoji : String) (rating : Rat)
    (hinv : ∀ s ∈ subs, nodupVoters s) :
    (∀ subs', handleVote subs sid uid rating = some subs' →
      ∀ s' ∈ subs', nodupVoters s') ∧
    (∀ s' ∈ handleReact subs sid uid emoji, nodupVoters s') := by
  constructor
  · intro subs' he s' hs'
    obtain ⟨s, hs, hse⟩ := handleVote_mem subs sid uid rating subs' he s' hs'
    exact voteOne_nodup s sid uid rating s' (hinv s hs) hse
  · intro s' hs'
    obtain ⟨s, hs, hse⟩ := List.mem_map.mp hs'
    have h := hinv s hs
    by_cases hid : s.id = sid
    · rw [if_pos hid] at hse
      subst hse
      constructor
      · exact h.1
      · simpa using applyReaction_nodup (s.reactions.getD []) uid emoji h.2
    · rw [if_neg hid] at hse
      subst hse
      exact h

/-- Witness for C8 on a concrete one-submission state where the acting user
u2 already has a vote and a reaction (the replace-in-place path). -/
theorem c8_handlers_preserve_nodup_witness :
    (∀ s ∈ [exVoted], nodupVoters s) ∧
    ((∀ subs', handleVote [exVoted] "s" "u2" 5 = some subs' →
        ∀ s' ∈ subs', nodupVoters s') ∧
      (∀ s' ∈ handleReact [exVoted] "s" "u2" "wave", nodupVoters s')) :=
  have hx : nodupVoters exVoted := ⟨by decide, by decide⟩
  have hall : ∀ s ∈ [exVoted], nodupVoters s := by
    intro s hs
    rw [List.mem_singleton] at hs
    rw [hs]
    exact hx
  ⟨hall, c8_handlers_preserve_nodup [exVoted] "s" "u2" "wave" 5 hall⟩

end Actify

namespace Actify

/-! ### Claim C2: structure of the week key -/

theorem civilFromDays_decompose (days : Int) :
    civilFromDays days =
      (400 * ((days + 719468) / 146097) +
          yearAdjOfDoe ((days + 719468) % 146097),
        mOfDoe ((days + 719468) % 146097),
        dOfDoe ((days + 719468) % 146097)) := by
  have h : days + 719468 - (days + 719468) / 146097 * 146097 =
      (days + 719468) % 146097 := by omega
  simp only [civilFromDays, yearAdjOfDoe, mOfDoe, dOfDoe, mpOfDoe, doyOfDoe,
    yoeOfDoe, h, Prod.mk.injEq]
  constructor
  · ring
  · trivial

theorem natStep_eq (n : Nat) : natStep n = (natD n, natAdj n, natGuard n) := rfl

theorem natStep_sound (n : Nat) (h1 : natYD n ≤ n) (h2 : natOff n ≤ natDoy n) :
    yoeOfDoe (n : Int) = (natYoe n : Int) ∧
    doyOfDoe (n : Int) = (natDoy n : Int) ∧
    mpOfDoe (n : Int) = (natMp n : Int) ∧
    dOfDoe (n : Int) = (natD n : Int) ∧
    yearAdjOfDoe (n : Int) = (natAdj n : Int) := by
  have e1 : yoeOfDoe (n : Int) = (natYoe n : Int) := by
    unfold yoeOfDoe natYoe
    omega
  have e2 : doyOfDoe (n : Int) = (natDoy n : Int) := by
    unfold natYD at h1
    unfold doyOfDoe natDoy natYD
    rw [e1]
    omega
  have e3 : mpOfDoe (n : Int) = (natMp n : Int) := by
    unfold mpOfDoe natMp
    rw [e2]
    omega
  have e4 : dOfDoe (n : Int) = (natD n : Int) := by
    unfold natOff at h2
    unfold dOfDoe natD natOff
    rw [e2, e3]
    omega
  have e5 : yearAdjOfDoe (n : Int) = (natAdj n : Int) := by
    unfold yearAdjOfDoe mOfDoe natAdj natM
    rw [e1, e3]
    split_ifs <;> push_cast <;> omega
  exact ⟨e1, e2, e3, e4, e5⟩

theorem pairOk_sound (n : Nat)
    (hp : pairOk (natStep n) (natStep (n + 7)) = true) :
    yearAdjOfDoe ((n : Int) + 7) ≠ yearAdjOfDoe (n : Int) ∨
    dOfDoe ((n : Int) + 7) = dOfDoe (n : Int) + 7 ∨
    (22 ≤ dOfDoe (n : Int) ∧ dOfDoe ((n : Int) + 7) ≤ 7) := by
  rw [natStep_eq, natStep_eq] at hp
  unfold pairOk natGuard at hp
  simp only [Bool.and_eq_true, Bool.or_eq_true, decide_eq_true_eq] at hp
  obtain ⟨⟨⟨g1, g2⟩, g3, g4⟩, hdisj⟩ := hp
  obtain ⟨-, -, -, d1, a1⟩ := natStep_sound n g1 g2
  obtain ⟨-, -, -, d2, a2⟩ := natStep_sound (n + 7) g3 g4
  have hcast : ((n + 7 : Nat) : Int) = (n : Int) + 7 := by push_cast; ring
  rw [hcast] at d2 a2
  have hdisj' : ¬(natAdj (n + 7) = natAdj n) ∨
      natD (n + 7) = natD n + 7 ∨
      (22 ≤ natD n ∧ natD (n + 7) ≤ 7) := by tauto
  rcases hdisj' with h | h | ⟨ha, hb⟩
  · left
    rw [a1, a2]
    intro he
    exact h (by omega)
  · right; left
    rw [d1, d2]
    omega
  · right; right
    rw [d1, d2]
    omega

theorem chainCheck_pairs :
    ∀ (b a : Nat), chainCheck (mondaySteps a b) = true →
      ∀ i, a ≤ i → i + 2 ≤ a + b →
        pairOk (natStep (7 * i + 5)) (natStep (7 * (i + 1) + 5)) = true := by
  intro b
  induction b with
  | zero =>
    intro a h i h1 h2
    omega
  | succ m ih =>
    intro a h i h1 h2
    cases m with
    | zero => omega
    | succ k =>
      have hexp : mondaySteps a (k + 1 + 1) =
          natStep (7 * a + 5) :: mondaySteps (a + 1) (k + 1) := by
        unfold mondaySteps
        rw [List.range'_succ]
        rfl
      have hexp2 : mondaySteps (a + 1) (k + 1) =
          natStep (7 * (a + 1) + 5) :: mondaySteps (a + 2) k := by
        unfold mondaySteps
        rw [List.range'_succ]
        rfl
      rw [hexp, hexp2] at h
      rw [show chainCheck (natStep (7 * a + 5) :: natStep (7 * (a + 1) + 5) ::
            mondaySteps (a + 2) k) =
          (pairOk (natStep (7 * a + 5)) (natStep (7 * (a + 1) + 5)) &&
            chainCheck (natStep (7 * (a + 1) + 5) :: mondaySteps (a + 2) k))
          from rfl, Bool.and_eq_true] at h
      rcases Nat.eq_or_lt_of_le h1 with he | hlt
      · rw [← he]
        exact h.1
      · refine ih (a + 1) ?_ i hlt (by omega)
        rw [hexp2]
        exact h.2

theorem weekStartDay_mod (t : Int) : getWeekStartDay t % 7 = 4 := by
  simp only [getWeekStartDay, dayOfWeek, dayNumber, msPerDay]
  split <;> omega

theorem weekStartDay_of_monday (m : Int) (hm : m % 7 = 4) :
    getWeekStartDay (m * msPerDay) = m := by
  simp only [getWeekStartDay, dayOfWeek, dayNumber, msPerDay]
  split <;> omega

theorem weekStartDay_of_sunday_end (m : Int) (hm : m % 7 = 4) :
    getWeekStartDay (m * msPerDay + 7 * msPerDay - 1) = m := by
  simp only [getWeekStartDay, dayOfWeek, dayNumber, msPerDay]
  split <;> omega

theorem weekStartDay_of_next_monday (m : Int) (hm : m % 7 = 4) :
    getWeekStartDay (m * msPerDay + 7 * msPerDay) = m + 7 := by
  simp only [getWeekStartDay, dayOfWeek, dayNumber, msPerDay]
  split <;> omega

theorem getWeekKey_eq (t : Int) :
    getWeekKey t = weekKeyOfDays (getWeekStartDay t) := rfl

end Actify

namespace Actify

/-! ### Claim C2: the finite per-era check, in fourteen kernel-evaluated
chunks (each chunk certifies the Monday-to-Monday transitions of part of
one 400-year era; the era pattern repeats exactly, since 146097 is a
multiple of 7). -/

set_option maxRecDepth 100000 in
theorem mondayChunk0 : chainCheck (mondaySteps 0 1501) = true := by decide

set_option maxRecDepth 100000 in
theorem mondayChunk1 : chainCheck (mondaySteps 1500 1501) = true := by decide

set_option maxRecDepth 100000 in
theorem mondayChunk2 : chainCheck (mondaySteps 3000 1501) = true := by decide

set_option maxRecDepth 100000 in
theorem mondayChunk3 : chainCheck (mondaySteps 4500 1501) = true := by decide

set_option maxRecDepth 100000 in
theorem mondayChunk4 : chainCheck (mondaySteps 6000 1501) = true := by decide

set_option maxRecDepth 100000 in
theorem mondayChunk5 : chainCheck (mondaySteps 7500 1501) = true := by decide

set_option maxRecDepth 100000 in
theorem mondayChunk6 : chainCheck (mondaySteps 9000 1501) = true := by decide

set_option maxRecDepth 100000 in
theorem mondayChunk7 : chainCheck (mondaySteps 10500 1501) = true := by decide

set_option maxRecDepth 100000 in
theorem mondayChunk8 : chainCheck (mondaySteps 12000 1501) = true := by decide

set_option maxRecDepth 100000 in
theorem mondayChunk9 : chainCheck (mondaySteps 13500 1501) = true := by decide

set_option maxRecDepth 100000 in
theorem mondayChunk10 : chainCheck (mondaySteps 15000 1501) = true := by decide

set_option maxRecDepth 100000 in
theorem mondayChunk11 : chainCheck (mondaySteps 16500 1501) = true := by decide

set_option maxRecDepth 100000 in
theorem mondayChunk12 : chainCheck (mondaySteps 18000 1501) = true := by decide

set_option maxRecDepth 100000 in
theorem mondayChunk13 : chainCheck (mondaySteps 19500 1371) = true := by decide

theorem pairOk_all (i : Nat) (hi : i ≤ 20869) :
    pairOk (natStep (7 * i + 5)) (natStep (7 * (i + 1) + 5)) = true := by
  rcases Nat.lt_or_ge i 1500 with h0 | h0
  · exact chainCheck_pairs 1501 0 mondayChunk0 i (by omega) (by omega)
  rcases Nat.lt_or_ge i 3000 with h1 | h1
  · exact chainCheck_pairs 1501 1500 mondayChunk1 i (by omega) (by omega)
  rcases Nat.lt_or_ge i 4500 with h2 | h2
  · exact chainCheck_pairs 1501 3000 mondayChunk2 i (by omega) (by omega)
  rcases Nat.lt_or_ge i 6000 with h3 | h3
  · exact chainCheck_pairs 1501 4500 mondayChunk3 i (by omega) (by omega)
  rcases Nat.lt_or_ge i 7500 with h4 | h4
  · exact chainCheck_pairs 1501 6000 mondayChunk4 i (by omega) (by omega)
  rcases Nat.lt_or_ge i 9000 with h5 | h5
  · exact chainCheck_pairs 1501 7500 mondayChunk5 i (by omega) (by omega)
  rcases Nat.lt_or_ge i 10500 with h6 | h6
  · exact chainCheck_pairs 1501 9000 mondayChunk6 i (by omega) (by omega)
  rcases Nat.lt_or_ge i 12000 with h7 | h7
  · exact chainCheck_pairs 1501 10500 mondayChunk7 i (by omega) (by omega)
  rcases Nat.lt_or_ge i 13500 with h8 | h8
  · exact chainCheck_pairs 1501 12000 mondayChunk8 i (by omega) (by omega)
  rcases Nat.lt_or_ge i 15000 with h9 | h9
  · exact chainCheck_pairs 1501 13500 mondayChunk9 i (by omega) (by omega)
  rcases Nat.lt_or_ge i 16500 with h10 | h10
  · exact chainCheck_pairs 1501 15000 mondayChunk10 i (by omega) (by omega)
  rcases Nat.lt_or_ge i 18000 with h11 | h11
  · exact chainCheck_pairs 1501 16500 mondayChunk11 i (by omega) (by omega)
  rcases Nat.lt_or_ge i 19500 with h12 | h12
  · exact chainCheck_pairs 1501 18000 mondayChunk12 i (by omega) (by omega)
  exact chainCheck_pairs 1371 19500 mondayChunk13 i (by omega) (by omega)

end Actify

namespace Actify

theorem weekKey_succ_ne (m : Int) (hm : m % 7 = 4) :
    weekKeyOfDays (m + 7) ≠ weekKeyOfDays m := by
  intro heq
  have hfy : ∀ w : Int, getFullYear w =
      400 * ((w + 719468) / 146097) + yearAdjOfDoe ((w + 719468) % 146097) :=
    fun w => by rw [getFullYear, civilFromDays_decompose]
  have hgd : ∀ w : Int, getDate w = dOfDoe ((w + 719468) % 146097) :=
    fun w => by rw [getDate, civilFromDays_decompose]
  have hdw : dayOfWeek m = 1 := by unfold dayOfWeek; omega
  have hdw7 : dayOfWeek (m + 7) = 1 := by unfold dayOfWeek; omega
  rw [Prod.ext_iff] at heq
  obtain ⟨h1, h2⟩ := heq
  simp only [weekKeyOfDays] at h1 h2
  rw [hfy, hfy] at h1
  rw [hgd, hgd, hdw, hdw7] at h2
  have hdoe7 : (m + 719468) % 146097 % 7 = 5 := by omega
  rcases le_or_lt ((m + 719468) % 146097) 146089 with hle | hgt
  · have h_era : (m + 7 + 719468) / 146097 = (m + 719468) / 146097 := by omega
    have h_doe : (m + 7 + 719468) % 146097 = (m + 719468) % 146097 + 7 := by
      omega
    rw [h_era, h_doe] at h1
    rw [h_doe] at h2
    obtain ⟨nn, hnn, hmod, hbound⟩ :
        ∃ nn : Nat, (nn : Int) = (m + 719468) % 146097 ∧ nn % 7 = 5 ∧
          nn ≤ 146088 :=
      ⟨((m + 719468) % 146097).toNat, by omega, by omega, by omega⟩
    have h75 : 7 * ((nn - 5) / 7) + 5 = nn := by omega
    have h76 : 7 * ((nn - 5) / 7 + 1) + 5 = nn + 7 := by omega
    have hiB : (nn - 5) / 7 ≤ 20869 := by omega
    have hpair := pairOk_all ((nn - 5) / 7) hiB
    rw [h75, h76] at hpair
    have hint := pairOk_sound nn hpair
    rw [hnn] at hint
    rcases hint with h | h | ⟨ha, hb⟩
    · exact h (by omega)
    · unfold ceilDiv7 at h2
      omega
    · unfold ceilDiv7 at h2
      omega
  · have hd : (m + 719468) % 146097 = 146095 := by omega
    have h_era : (m + 7 + 719468) / 146097 = (m + 719468) / 146097 + 1 := by
      omega
    have h_doe : (m + 7 + 719468) % 146097 = 5 := by omega
    rw [h_era, h_doe, hd] at h1
    rw [h_doe, hd] at h2
    have c3 : dOfDoe 146095 = 28 := by decide
    have c4 : dOfDoe 5 = 6 := by decide
    rw [c3, c4] at h2
    unfold ceilDiv7 at h2
    omega

/-- Counterexample to C2: the classification is not equivalent to equality
of week starts.  With now in the week of Monday 2025-03-03 (day 20150), a
submission from the week of Monday 2025-06-02 (day 20241) is classified as
current week (both weeks have the key (2025, 1)), although the two
Monday-00:00 week starts differ. -/
theorem c2_counterexample :
    isCurrentWeek (20241 * msPerDay) (20150 * msPerDay) = true ∧
    getWeekStart (20241 * msPerDay) ≠ getWeekStart (20150 * msPerDay) := by
  constructor
  · decide
  · decide

/-- C2 as amended: equal week starts imply current-week classification (the
converse fails, see the counterexample), and the three boundary facts hold
for every now: the Monday 00:00:00.000 instant of the current week is
included, Sunday 23:59:59.999 of the same week is included, and the
following Monday 00:00:00.000 is excluded. -/
theorem c2_amended_week_test (t now : Int) :
    (getWeekStart t = getWeekStart now → isCurrentWeek t now = true) ∧
    isCurrentWeek (getWeekStart now) now = true ∧
    isCurrentWeek (getWeekStart now + 7 * msPerDay - 1) now = true ∧
    isCurrentWeek (getWeekStart now + 7 * msPerDay) now = false := by
  have hm : getWeekStartDay now % 7 = 4 := weekStartDay_mod now
  refine ⟨?_, ?_, ?_, ?_⟩
  · intro h
    have hd : getWeekStartDay t = getWeekStartDay now := by
      unfold getWeekStart msPerDay at h
      omega
    rw [isCurrentWeek, getWeekKey_eq, getWeekKey_eq, hd]
    simp
  · rw [isCurrentWeek, getWeekKey_eq, getWeekKey_eq,
      show getWeekStart now = getWeekStartDay now * msPerDay from rfl,
      weekStartDay_of_monday _ hm]
    simp
  · rw [isCurrentWeek, getWeekKey_eq, getWeekKey_eq,
      show getWeekStart now = getWeekStartDay now * msPerDay from rfl,
      weekStartDay_of_sunday_end _ hm]
    simp
  · rw [isCurrentWeek, getWeekKey_eq, getWeekKey_eq,
      show getWeekStart now = getWeekStartDay now * msPerDay from rfl,
      weekStartDay_of_next_monday _ hm]
    exact decide_eq_false (weekKey_succ_ne _ hm)

/-- Witness for C2 as amended, at now = Monday 2025-03-03 00:00 local. -/
theorem c2_amended_week_test_witness :
    isCurrentWeek (20150 * msPerDay) (20150 * msPerDay) = true ∧
    isCurrentWeek (getWeekStart (20150 * msPerDay)) (20150 * msPerDay) = true ∧
    isCurrentWeek (getWeekStart (20150 * msPerDay) + 7 * msPerDay - 1)
      (20150 * msPerDay) = true ∧
    isCurrentWeek (getWeekStart (20150 * msPerDay) + 7 * msPerDay)
      (20150 * msPerDay) = false :=
  ⟨(c2_amended_week_test (20150 * msPerDay) (20150 * msPerDay)).1 rfl,
    (c2_amended_week_test (20150 * msPerDay) (20150 * msPerDay)).2⟩

end Actify
